import Mathlib

/-!
Verification development for the receipty printer-communication subsystem.

The repository's TypeScript core is shallowly embedded here:
bytes are `Nat` (values 0–255), `Buffer`s are `List Nat`, strings of
printable ASCII are byte lists, and the asynchronous job queue is a
state-transition system whose atomic steps are the synchronous runs of
the single-threaded event loop between `await` suspension points.
-/

namespace Receipty

/-! ## ESC/POS payload encoder (`src/escpos.ts`) -/

/-- Cut mode from configuration: the strings `'none' | 'full' | 'partial'`
in `config.ts`. -/
inductive CutMode where
  | noCut
  | fullCut
  | partialCut
  deriving DecidableEq, Repr

/-- `buildEscPosTextPayload(text, allowEmpty)` from `src/escpos.ts`:
empty text yields a single `0x0a` byte when `allowEmpty`, nothing
otherwise; non-empty text gets one `0x0a` appended unless it already
ends with one. Text is the sanitized printable-ASCII byte list. -/
def buildEscPosTextPayload (text : List Nat) (allowEmpty : Bool) : List Nat :=
  if text = [] then
    if allowEmpty then [0x0a] else []
  else if text.getLast? = some 0x0a then text
  else text ++ [0x0a]

/-- `buildEscPosFooter(feedLines, cutMode)` from `src/escpos.ts`:
`feedLines` feed bytes when positive, then the 3-byte cut command
selected by the cut mode. -/
def buildEscPosFooter (feedLines : Nat) (cutMode : CutMode) : List Nat :=
  ((if feedLines > 0 then [List.replicate feedLines 0x0a] else []) ++
   (if cutMode = CutMode.fullCut then [[0x1d, 0x56, 0x00]] else []) ++
   (if cutMode = CutMode.partialCut then [[0x1d, 0x56, 0x01]] else [])).flatten

/-- `buildEscPosPayload(text, feedLines, cutMode)` from `src/escpos.ts`. -/
def buildEscPosPayload (text : List Nat) (feedLines : Nat) (cutMode : CutMode) : List Nat :=
  buildEscPosTextPayload text true ++ buildEscPosFooter feedLines cutMode

/-! ## Status decoder (`parseStatusBytes` in `src/escpos.ts` / `printer-status.ts`) -/

/-- Severity level of one decoded status entry: `'ok' | 'warning' | 'error'`. -/
inductive StatusLevel where
  | ok
  | warning
  | error
  deriving DecidableEq, Repr

/-- One decoded entry of a status class (interface `StatusEntry`). -/
structure StatusEntry where
  bit : Nat
  label : String
  status : StatusLevel
  deriving DecidableEq, Repr

/-- Report of one status class (interface `StatusClassReport`). -/
structure StatusClassReport where
  className : String
  byte : Nat
  statuses : List StatusEntry
  deriving DecidableEq, Repr

/-- The full decoded report (interface `StatusReport`). -/
structure StatusReport where
  ok : Bool
  raw : List Nat
  statuses : List StatusClassReport
  deriving DecidableEq, Repr

/-- Modelled from the spec: the status-class bit tables live in the external
`escpos/statuses` library, which is not part of this repository. Per §4.2
each class is a fixed bit-to-(label, severity) mapping. -/
structure StatusClass where
  className : String
  table : List (Nat × String × StatusLevel)
  deriving DecidableEq, Repr

/-- Modelled from the spec: `new StatusClass(byte).toJSON()`. A set bit
produces its table entry; a class with no active bits yields an empty
status list (§4.2). -/
def statusClassToJSON (c : StatusClass) (byte : Nat) : StatusClassReport :=
  { className := c.className
    byte := byte
    statuses := c.table.filterMap fun e =>
      if byte.testBit e.1 then some ⟨e.1, e.2.1, e.2.2⟩ else none }

/-- Modelled from the spec: printer mechanical status byte. Bit 3 set means
the printer is offline, an error-level condition (§8 scenario
`[0x08,0,0,0] → ok=false`). -/
def PrinterStatus : StatusClass :=
  { className := "PrinterStatus"
    table := [(2, "Drawer kick-out connector pin 3 is HIGH", .ok),
              (3, "Offline", .error)] }

/-- Modelled from the spec: roll-paper sensor status byte. -/
def RollPaperSensorStatus : StatusClass :=
  { className := "RollPaperSensorStatus"
    table := [(2, "Roll paper near-end sensor: paper near end", .warning),
              (3, "Roll paper near-end sensor: paper near end", .warning),
              (5, "Roll paper end sensor: paper not present", .error),
              (6, "Roll paper end sensor: paper not present", .error)] }

/-- Modelled from the spec: offline-cause status byte. -/
def OfflineCauseStatus : StatusClass :=
  { className := "OfflineCauseStatus"
    table := [(2, "Cover is open", .error),
              (3, "Paper is being fed by the paper feed button", .warning),
              (5, "Printing stops due to a paper end", .error),
              (6, "Error occurred", .error)] }

/-- Modelled from the spec: error-cause status byte. -/
def ErrorCauseStatus : StatusClass :=
  { className := "ErrorCauseStatus"
    table := [(2, "Recoverable error occurred", .error),
              (3, "Autocutter error occurred", .error),
              (5, "Unrecoverable error occurred", .error),
              (6, "Auto-recoverable error occurred", .error)] }

/-- `STATUS_CLASSES` from `src/escpos.ts`: the four classes in their fixed
protocol order. -/
def STATUS_CLASSES : List StatusClass :=
  [PrinterStatus, RollPaperSensorStatus, OfflineCauseStatus, ErrorCauseStatus]

/-- The body of `parseStatusBytes` as a function of the sliced prefix
`raw` (proof plumbing: everything after the `slice` depends only on
`raw`). -/
def parseStatusBytesFromRaw (raw : List Nat) : StatusReport :=
  let reports := STATUS_CLASSES.mapIdx fun index c =>
    statusClassToJSON c (raw.getD index 0)
  let ok := reports.all fun report =>
    report.statuses.all fun entry => entry.status != StatusLevel.error
  { ok := ok, raw := raw, statuses := reports }

/-- `parseStatusBytes(bytes)` from `src/escpos.ts`: take the first four
bytes (`bytes.slice(0, STATUS_CLASSES.length)`), decode each class from
its byte — a missing byte reads as 0 (`raw[index] ?? 0`) — and report
`ok` iff no entry of any class has severity `error`. -/
def parseStatusBytes (bytes : List Nat) : StatusReport :=
  parseStatusBytesFromRaw (bytes.take STATUS_CLASSES.length)

/-! ## Printer client (`src/printer.ts`)

Network I/O is embedded effect-style: each operation returns its result
together with the ordered list of socket effects it performed, and the
4-byte status read is parameterised by the bytes the socket delivered. -/

/-- `DEFAULT_RETRIES` from `src/printer.ts`. -/
def DEFAULT_RETRIES : Nat := 2

/-- `retryNetwork(action)` from `src/printer.ts`, starting at a given
attempt index: run the attempt; on failure rethrow once
`attempt >= DEFAULT_RETRIES`, otherwise back off and try the next
attempt. The environment is the outcome of each numbered attempt. -/
def retryNetworkFrom {α : Type} (action : Nat → Except String α) : Nat → Except String α :=
  fun attempt =>
    match action attempt with
    | .ok a => .ok a
    | .error e =>
      if attempt ≥ DEFAULT_RETRIES then .error e
      else retryNetworkFrom action (attempt + 1)
  termination_by attempt => DEFAULT_RETRIES + 1 - attempt
  decreasing_by omega

/-- The `for (let attempt = 0; ...)` loop begins at attempt 0. -/
def retryNetwork {α : Type} (action : Nat → Except String α) : Except String α :=
  retryNetworkFrom action 0

/-- Control commands: `'feed' | 'cut' | 'status'` in `src/printer.ts`
(`statusQuery` embeds the string `'status'`). -/
inductive ControlCommand where
  | feed
  | cut
  | statusQuery
  deriving DecidableEq, Repr

/-- Interface `ControlResult` from `src/printer.ts`. -/
structure ControlResult where
  confirmed : Bool
  status : Option StatusReport
  error : Option String
  deriving DecidableEq, Repr

/-- One socket-level effect of an Ethernet control operation. -/
inductive NetEffect where
  | connect
  | write (payload : List Nat)
  | read (n : Nat)
  | close
  deriving DecidableEq, Repr

/-- `STATUS_BYTES` from `src/printer.ts`. -/
def STATUS_BYTES : Nat := 4

/-- `STATUS_REQUEST` from `src/printer.ts`: three-byte "ask class N"
commands for the four status classes. -/
def STATUS_REQUEST : List Nat :=
  [0x10, 0x04, 0x01,
   0x10, 0x04, 0x04,
   0x10, 0x04, 0x02,
   0x10, 0x04, 0x03]

/-- `buildFeedPayload(feedLines)` from `src/printer.ts`. -/
def buildFeedPayload (feedLines : Nat) : List Nat :=
  List.replicate (max 1 feedLines) 0x0a

/-- `buildCutPayload(feedLines, cutMode)` from `src/printer.ts`. -/
def buildCutPayload (feedLines : Nat) (cutMode : CutMode) : List Nat :=
  ((if feedLines > 0 then [List.replicate feedLines 0x0a] else []) ++
   (if cutMode = CutMode.fullCut then [[0x1d, 0x56, 0x00]] else []) ++
   (if cutMode = CutMode.partialCut then [[0x1d, 0x56, 0x01]] else [])).flatten

/-- `writeSocketPayload(socket, payload, timeout)` from `src/printer.ts`
returns without touching the socket when the payload is empty. -/
def writeSocketPayload (payload : List Nat) : List NetEffect :=
  if payload.length = 0 then [] else [NetEffect.write payload]

/-- `executeEthernetControl(...)` from `src/printer.ts`: connect, write the
command-specific payload (feed and cut only), always write the 12-byte
status request and read exactly `STATUS_BYTES` response bytes, parse
them, and close the socket in the `finally` block. `statusBytes` is the
4-byte read result delivered by the socket. -/
def executeEthernetControl (command : ControlCommand) (feedLines cutFeedLines : Nat)
    (cutMode : CutMode) (statusBytes : List Nat) : StatusReport × List NetEffect :=
  let w1 := if command = ControlCommand.feed then
    writeSocketPayload (buildFeedPayload feedLines) else []
  let w2 := if command = ControlCommand.cut then
    writeSocketPayload (buildCutPayload cutFeedLines cutMode) else []
  (parseStatusBytes statusBytes,
   NetEffect.connect :: (w1 ++ w2 ++ writeSocketPayload STATUS_REQUEST
     ++ [NetEffect.read STATUS_BYTES, NetEffect.close]))

/-- The rejection message for `control('cut')` under `CUT_MODE=none`. -/
def cutDisabledMessage : String :=
  "Cutting is disabled because CUT_MODE is set to none."

/-- The message attached when the decoded report is not ok. -/
def confirmFailedMessage : String :=
  "Printer responded with an error while confirming the command."

/-- `createEthernetPrinter(...).control(command)` from `src/printer.ts`,
on the path where the retry wrapper's first attempt succeeds (the
deterministic embedding of a successful socket exchange): reject cut
outright when the cut mode is `none`, otherwise run
`executeEthernetControl` and derive confirmation from the report. -/
def ethernetControl (feedLines cutFeedLines : Nat) (cutMode : CutMode)
    (command : ControlCommand) (statusBytes : List Nat) : ControlResult × List NetEffect :=
  if command = ControlCommand.cut ∧ cutMode = CutMode.noCut then
    ({ confirmed := false, status := none, error := some cutDisabledMessage }, [])
  else
    let r := executeEthernetControl command feedLines cutFeedLines cutMode statusBytes
    if command = ControlCommand.statusQuery then
      ({ confirmed := true, status := some r.1, error := none }, r.2)
    else if r.1.ok then
      ({ confirmed := true, status := some r.1, error := none }, r.2)
    else
      ({ confirmed := false, status := some r.1, error := some confirmFailedMessage }, r.2)

/-- `controlUnsupported` from `src/printer.ts`. -/
def controlUnsupported : ControlResult :=
  { confirmed := false
    status := none
    error := some "Printer control confirmation is not available in USB mode; command not sent." }

/-- `createUsbPrinter(...).control` from `src/printer.ts`:
`control: async () => controlUnsupported` — it ignores the command and
performs no device I/O. -/
def usbControl (_command : ControlCommand) : ControlResult × List NetEffect :=
  (controlUnsupported, [])

/-! ## Raster image payload (`buildEscPosImagePayload` in `src/escpos.ts`)

The sharp pipeline (flatten, resize, greyscale) happens in an external
library; the embedding starts from its output: the raw greyscale buffer
`data` with dimensions `info.width × info.height`, addressed as
`data[y * width + x]`. -/

/-- `Math.ceil(info.width / 8)` — the row width in bytes. -/
def bytesPerRowOf (width : Nat) : Nat := (width + 7) / 8

/-- The body of the packing loop for one pixel `(y, x)`: a pixel strictly
below the threshold ORs `1 << (7 - (x & 7))` into the raster byte at
`y * bytesPerRow + (x >> 3)`. Out-of-range assignment on a `Uint8Array`
is a no-op, matching `List.set` beyond the length. -/
def setRasterPixel (bytesPerRow width threshold : Nat) (data : Nat → Nat)
    (y x : Nat) (raster : List Nat) : List Nat :=
  if data (y * width + x) < threshold then
    let byteIndex := y * bytesPerRow + x / 8
    raster.set byteIndex (raster.getD byteIndex 0 ||| 1 <<< (7 - x % 8))
  else raster

/-- The inner packing loop of `buildEscPosImagePayload` for row `y`,
restricted to the first `n` pixels of the row (the loop itself is
`rowFold … w`). -/
def rowFold (bytesPerRow width threshold : Nat) (data : Nat → Nat) (y n : Nat)
    (r : List Nat) : List Nat :=
  (List.range n).foldl (fun r x => setRasterPixel bytesPerRow width threshold data y x r) r

/-- The bit pattern the first `n` pixels of row `y` contribute to the
byte at column `b` of that row. -/
def rowMask (width threshold : Nat) (data : Nat → Nat) (y b n : Nat) : Nat :=
  (List.range n).foldl
    (fun m x =>
      if x / 8 = b ∧ data (y * width + x) < threshold then m ||| 1 <<< (7 - x % 8) else m)
    0

/-- The outer packing loop of `buildEscPosImagePayload` over the first
`m` rows (the loop itself is `outerFold … height`). -/
def outerFold (bytesPerRow width threshold : Nat) (data : Nat → Nat) (m : Nat)
    (init : List Nat) : List Nat :=
  (List.range m).foldl
    (fun raster y => rowFold bytesPerRow width threshold data y width raster)
    init

/-- The two nested packing loops over `y < height`, `x < width`, starting
from `Buffer.alloc(bytesPerRow * height)` (all zeroes). -/
def buildRaster (width height threshold : Nat) (data : Nat → Nat) : List Nat :=
  outerFold (bytesPerRowOf width) width threshold data height
    (List.replicate (bytesPerRowOf width * height) 0)

/-- The 8-byte raster header of `buildEscPosImagePayload`. -/
def imageHeader (width height : Nat) : List Nat :=
  [0x1d, 0x76, 0x30, 0x00,
   bytesPerRowOf width &&& 0xff, (bytesPerRowOf width >>> 8) &&& 0xff,
   height &&& 0xff, (height >>> 8) &&& 0xff]

/-- `buildEscPosImagePayload` from `src/escpos.ts`: header then packed
raster (`Buffer.concat([header, raster])`). -/
def buildEscPosImagePayload (width height threshold : Nat) (data : Nat → Nat) : List Nat :=
  imageHeader width height ++ buildRaster width height threshold data

/-! ## Job queue (`JobQueue` in `src/queue.ts`, repository in `src/jobs.ts`)

Node's event loop is single-threaded: `kick()` and the synchronous
prefix of `processLoop()` (claim the next job, mark it `printing`,
invoke `print` up to its first internal await) run without
interleaving, and the only suspension point of the worker is the
`await this.printer.print(...)` inside `processJob`. The queue is
therefore a transition system whose atomic transitions are these
synchronous runs. `worker` records the in-flight `print` invocations by
job id (the code can only ever await one; the model lets the list grow
so that "at most one in flight" is a provable invariant rather than a
modelling assumption). `claimed` is a ghost history of job ids in the
order the worker claimed them for printing. -/

/-- `JobStatus` from `src/jobs.ts`. -/
inductive JobStatus where
  | queued
  | printing
  | succeeded
  | failed
  deriving DecidableEq, Repr

/-- The fields of a `JobRow` the queue manipulates: `id` is the
`AUTOINCREMENT`-style monotone integer key, `error` is the failure
detail column. -/
structure Job where
  id : Nat
  status : JobStatus
  error : Option String
  deriving DecidableEq, Repr

/-- Queue state: the `processing` and `pendingKick` fields of `JobQueue`,
the persisted jobs table (in insertion order, ids ascending), the next
fresh row id, the in-flight `print` invocations, and the ghost claim
history. -/
structure QState where
  processing : Bool
  pendingKick : Bool
  jobs : List Job
  nextId : Nat
  worker : List Nat
  claimed : List Nat
  deriving DecidableEq, Repr

/-- `nextQueuedStmt`: `SELECT * FROM jobs WHERE status = 'queued' ORDER BY
id ASC LIMIT 1`. The jobs list is kept in ascending id order, so this is
the first queued entry. -/
def nextQueued (jobs : List Job) : Option Job :=
  jobs.find? fun j => j.status == JobStatus.queued

/-- `updateStatusStmt`: `UPDATE jobs SET status = ?, error = ? WHERE
id = ?` (`updateStatus` defaults `error` to `null`). -/
def setStatus (jobs : List Job) (id : Nat) (status : JobStatus) (error : Option String) :
    List Job :=
  jobs.map fun j => if j.id = id then { j with status := status, error := error } else j

/-- The synchronous run of the worker from the top of the `while (true)`
loop in `processLoop` (with `processing` already `true`): claim the next
queued job — `updateStatus(job.id, 'printing')` then suspend at
`await this.printer.print(...)` — or, when none is queued, run the
`finally` block: clear `processing`; if `pendingKick` was set, clear it
and call `kick()`, which restarts `processLoop` synchronously. That
restart is unrolled once below: it re-reads `nextQueued` on the
unchanged table, and its own `finally` cannot recurse again because
`pendingKick` was cleared first. -/
def loopStep (s : QState) : QState :=
  match nextQueued s.jobs with
  | some j =>
    { s with jobs := setStatus s.jobs j.id JobStatus.printing none
             worker := s.worker ++ [j.id]
             claimed := s.claimed ++ [j.id] }
  | none =>
    let s1 := { s with processing := false }
    if s1.pendingKick then
      let s2 := { s1 with pendingKick := false, processing := true }
      match nextQueued s2.jobs with
      | some j =>
        { s2 with jobs := setStatus s2.jobs j.id JobStatus.printing none
                  worker := s2.worker ++ [j.id]
                  claimed := s2.claimed ++ [j.id] }
      | none => { s2 with processing := false }
    else s1

/-- `JobQueue.kick()`: while the loop is processing, only set the pending
flag; otherwise start `processLoop`, which sets `processing = true` and
runs synchronously to its first suspension. -/
def kick (s : QState) : QState :=
  if s.processing then { s with pendingKick := true }
  else loopStep { s with processing := true }

/-- The worker resumes when the awaited `print` settles: `processJob`
records `succeeded`, or `failed` with the error detail
(`error.stack || error.message`), then control returns to the top of
the `while` loop. With no in-flight print the event is a no-op. -/
def resume (s : QState) (outcome : Except String Unit) : QState :=
  match s.worker with
  | [] => s
  | id :: rest =>
    let jobs := match outcome with
      | .ok _ => setStatus s.jobs id JobStatus.succeeded none
      | .error msg => setStatus s.jobs id JobStatus.failed (some msg)
    loopStep { s with jobs := jobs, worker := rest }

/-- External events: a job insert (`repo.insert` writes a fresh row with
status `'queued'`), a wake (`queue.kick()`), and the settling of the
in-flight `print` promise. -/
inductive Event where
  | submit
  | kickEvent
  | printDone (outcome : Except String Unit)

/-- The transition function. -/
def applyEvent (s : QState) (e : Event) : QState :=
  match e with
  | .submit =>
    { s with jobs := s.jobs ++ [{ id := s.nextId, status := JobStatus.queued, error := none }]
             nextId := s.nextId + 1 }
  | .kickEvent => kick s
  | .printDone outcome => resume s outcome

/-- The initial state: queue idle, no jobs. -/
def qInit : QState :=
  { processing := false, pendingKick := false, jobs := [], nextId := 0
    worker := [], claimed := [] }

/-- States reachable from the initial state under any event sequence. -/
inductive Reachable : QState → Prop where
  | init : Reachable qInit
  | step {s : QState} (e : Event) : Reachable s → Reachable (applyEvent s e)

/-- The inductive invariant of the job queue. -/
structure Inv (s : QState) : Prop where
  sortedIds : s.jobs.Pairwise fun a b => a.id < b.id
  idsLt : ∀ j ∈ s.jobs, j.id < s.nextId
  workerLen : s.worker.length ≤ 1
  workerLt : ∀ id ∈ s.worker, id < s.nextId
  workerMem : ∀ id ∈ s.worker, ∃ j ∈ s.jobs, j.id = id ∧ j.status = JobStatus.printing
  idleWorker : s.processing = false → s.worker = []
  workerPrinting : ∀ id, s.worker = [id] →
    s.processing = true ∧ ∀ j ∈ s.jobs, (j.status = JobStatus.printing ↔ j.id = id)
  noWorkerNoPrinting : s.worker = [] → ∀ j ∈ s.jobs, j.status ≠ JobStatus.printing
  claimedSorted : s.claimed.Pairwise (· < ·)
  claimedLt : ∀ c ∈ s.claimed, c < s.nextId
  claimedBeforeQueued : ∀ c ∈ s.claimed, ∀ j ∈ s.jobs,
    j.status = JobStatus.queued → c < j.id
  workerBeforeQueued : ∀ id ∈ s.worker, ∀ j ∈ s.jobs,
    j.status = JobStatus.queued → id < j.id

/-! ## General helper lemmas -/

lemma getD_set_zero (l : List Nat) (i k v : Nat) :
    (l.set i v).getD k 0 = if i = k ∧ i < l.length then v else l.getD k 0 := by
  rw [List.getD_eq_getElem?_getD, List.getD_eq_getElem?_getD, List.getElem?_set]
  by_cases h : i = k
  · subst h
    by_cases hl : i < l.length
    · simp [hl]
    · simp [hl, List.getElem?_eq_none (Nat.le_of_not_lt hl)]
  · simp [h]

lemma getD_replicate_zero (n i : Nat) : (List.replicate n (0 : Nat)).getD i 0 = 0 := by
  rw [List.getD_eq_getElem?_getD, List.getElem?_replicate]
  split <;> simp

lemma foldl_length_fixed {β : Type} (f : List Nat → β → List Nat)
    (hf : ∀ r b, (f r b).length = r.length) :
    ∀ (l : List β) (init : List Nat), (l.foldl f init).length = init.length := by
  intro l
  induction l with
  | nil => intro init; rfl
  | cons a t ih => intro init; rw [List.foldl_cons, ih, hf]

/-! ## C6: footer encoding -/

/-- C6: for every feed-line count `N ≥ 0` and every cut mode, the encoded
footer is exactly `N` bytes of `0x0A` followed by the cut command of the
mode: no bytes for `none`, `0x1D 0x56 0x00` for `full`, and
`0x1D 0x56 0x01` for `partial`. -/
theorem buildEscPosFooter_spec (N : Nat) (cm : CutMode) :
    buildEscPosFooter N cm =
      List.replicate N 0x0a ++
        (match cm with
         | CutMode.noCut => []
         | CutMode.fullCut => [0x1d, 0x56, 0x00]
         | CutMode.partialCut => [0x1d, 0x56, 0x01]) := by
  cases cm <;> rcases Nat.eq_zero_or_pos N with h | h <;>
    simp [buildEscPosFooter, h]

/-! ## C7: text payload trailing newline -/

/-- The claim's property "ends with exactly one trailing line-terminator
byte": the last byte is `0x0A` and the byte before it (when present) is
not. -/
def endsWithExactlyOneNewline (l : List Nat) : Prop :=
  l.getLast? = some 0x0a ∧ l.dropLast.getLast? ≠ some 0x0a

/-- C7 (counterexample): for the printable text `"a\n\n"` the standalone
text payload is returned unchanged and ends with two `0x0A` bytes, not
exactly one. -/
theorem buildEscPosTextPayload_two_newlines :
    buildEscPosTextPayload [97, 10, 10] true = [97, 10, 10] ∧
      ¬ endsWithExactlyOneNewline (buildEscPosTextPayload [97, 10, 10] true) := by
  constructor
  · rfl
  · intro h
    have := h.2
    revert this
    decide

/-- C7 (amended): the standalone text payload always ends with at least
one `0x0A`; text already ending in `0x0A` is returned unchanged (so a
text ending in several newlines keeps all of them), text not ending in
`0x0A` gets exactly one appended, and empty text yields a single
newline byte when emptiness is allowed. -/
theorem buildEscPosTextPayload_amended (t : List Nat) :
    (buildEscPosTextPayload t true).getLast? = some 0x0a ∧
      (t = [] → buildEscPosTextPayload t true = [0x0a]) ∧
      (t.getLast? = some 0x0a → buildEscPosTextPayload t true = t) ∧
      (t ≠ [] → t.getLast? ≠ some 0x0a → buildEscPosTextPayload t true = t ++ [0x0a]) := by
  refine ⟨?_, ?_, ?_, ?_⟩
  · unfold buildEscPosTextPayload
    by_cases h0 : t = []
    · simp [h0]
    · by_cases h1 : t.getLast? = some 0x0a
      · simp [h0, h1]
      · simp [h0, h1, List.getLast?_concat]
  · intro h; simp [buildEscPosTextPayload, h]
  · intro h
    have h0 : t ≠ [] := by rintro rfl; simp at h
    simp [buildEscPosTextPayload, h0, h]
  · intro h0 h1; simp [buildEscPosTextPayload, h0, h1]

/-- Witness for C7's amended theorem at the concrete text `"a"`. -/
theorem buildEscPosTextPayload_amended_witness :
    buildEscPosTextPayload [97] true = [97] ++ [0x0a] :=
  (buildEscPosTextPayload_amended [97]).2.2.2 (by decide) (by decide)

/-! ## C9: USB control commands -/

/-- C9: in USB mode every control command — feed, cut, and the status
query alike — returns `confirmed = false` with the one fixed
explanatory message, carries no status report, and performs no device
I/O (and the constant result means nothing is thrown and nothing is
retried). -/
theorem usbControl_spec (cmd : ControlCommand) :
    (usbControl cmd).1.confirmed = false ∧
      (usbControl cmd).1.error =
        some "Printer control confirmation is not available in USB mode; command not sent." ∧
      (usbControl cmd).1.status = none ∧
      (usbControl cmd).2 = [] ∧
      ∀ cmd' : ControlCommand, usbControl cmd = usbControl cmd' :=
  ⟨rfl, rfl, rfl, rfl, fun _ => rfl⟩

/-! ## C4 and C10: the status decoder -/

lemma getD_take_zero (l : List Nat) (n i : Nat) (h : i < n) :
    (l.take n).getD i 0 = l.getD i 0 := by
  rw [List.getD_eq_getElem?_getD, List.getD_eq_getElem?_getD, List.getElem?_take]
  simp [h]

lemma parseStatusBytes_statuses (bs : List Nat) :
    (parseStatusBytes bs).statuses =
      [statusClassToJSON PrinterStatus (bs.getD 0 0),
       statusClassToJSON RollPaperSensorStatus (bs.getD 1 0),
       statusClassToJSON OfflineCauseStatus (bs.getD 2 0),
       statusClassToJSON ErrorCauseStatus (bs.getD 3 0)] := by
  show [statusClassToJSON PrinterStatus ((bs.take 4).getD 0 0),
        statusClassToJSON RollPaperSensorStatus ((bs.take 4).getD 1 0),
        statusClassToJSON OfflineCauseStatus ((bs.take 4).getD 2 0),
        statusClassToJSON ErrorCauseStatus ((bs.take 4).getD 3 0)] = _
  rw [getD_take_zero bs 4 0 (by omega), getD_take_zero bs 4 1 (by omega),
      getD_take_zero bs 4 2 (by omega), getD_take_zero bs 4 3 (by omega)]

/-- C4: `parseStatusBytes` is total and deterministic — a Lean function
over all byte lists, hence over all `256^4` four-byte inputs — and for
every input it returns exactly 4 status classes in the fixed protocol
order, reads missing trailing bytes as 0, and reports `ok = true` iff
no entry of any class has severity `error` (so `warning` entries never
make `ok` false). -/
theorem parseStatusBytes_spec (bs : List Nat) :
    (parseStatusBytes bs).statuses.length = 4 ∧
      (parseStatusBytes bs).statuses.map (fun r => r.className) =
        ["PrinterStatus", "RollPaperSensorStatus", "OfflineCauseStatus", "ErrorCauseStatus"] ∧
      (∀ i, i < 4 →
        ((parseStatusBytes bs).statuses.getD i ⟨"", 0, []⟩).byte = bs.getD i 0) ∧
      ((parseStatusBytes bs).ok = true ↔
        ∀ r ∈ (parseStatusBytes bs).statuses, ∀ e ∈ r.statuses,
          e.status ≠ StatusLevel.error) := by
  refine ⟨?_, ?_, ?_, ?_⟩
  · rw [parseStatusBytes_statuses]; rfl
  · rw [parseStatusBytes_statuses]; rfl
  · intro i hi
    interval_cases i <;> rw [parseStatusBytes_statuses] <;> rfl
  · have hok : (parseStatusBytes bs).ok =
        (parseStatusBytes bs).statuses.all
          (fun report => report.statuses.all fun e => e.status != StatusLevel.error) := rfl
    rw [hok]
    simp [List.all_eq_true, bne_iff_ne]

/-- Witness for C4 at the one-byte input `[0x08]`: the report still has a
byte for the (missing) second class, read as 0. -/
theorem parseStatusBytes_spec_witness :
    ((parseStatusBytes [8]).statuses.getD 1 ⟨"", 0, []⟩).byte = ([8] : List Nat).getD 1 0 :=
  (parseStatusBytes_spec [8]).2.2.1 1 (by decide)

/-- C10: `parseStatusBytes` depends only on the first four elements of
its input — two inputs with equal four-byte prefixes produce identical
reports (`ok`, `raw` and `statuses` alike) — and in particular any
bytes past the fourth are ignored. -/
theorem parseStatusBytes_first_four (b1 b2 : List Nat) :
    (b1.take 4 = b2.take 4 → parseStatusBytes b1 = parseStatusBytes b2) ∧
      parseStatusBytes b1 = parseStatusBytes (b1.take 4) := by
  constructor
  · intro h
    show parseStatusBytesFromRaw (b1.take 4) = parseStatusBytesFromRaw (b2.take 4)
    rw [h]
  · show parseStatusBytesFromRaw (b1.take 4) = parseStatusBytesFromRaw ((b1.take 4).take 4)
    rw [List.take_take]
    norm_num

/-- Witness for C10: a five-byte input and its four-byte prefix decode to
the same report. -/
theorem parseStatusBytes_first_four_witness :
    (([8, 0, 0, 0, 99] : List Nat).take 4 = ([8, 0, 0, 0] : List Nat).take 4) ∧
      parseStatusBytes [8, 0, 0, 0, 99] = parseStatusBytes [8, 0, 0, 0] :=
  ⟨by decide, (parseStatusBytes_first_four [8, 0, 0, 0, 99] [8, 0, 0, 0]).1 (by decide)⟩

/-! ## C5: Ethernet control commands -/

lemma buildFeedPayload_length_pos (fl : Nat) : (buildFeedPayload fl).length ≠ 0 := by
  simp [buildFeedPayload]

lemma buildCutPayload_length_pos (cfl : Nat) (cm : CutMode) (h : cm ≠ CutMode.noCut) :
    (buildCutPayload cfl cm).length ≠ 0 := by
  cases cm
  · exact absurd rfl h
  · rcases Nat.eq_zero_or_pos cfl with h0 | h0 <;> simp [buildCutPayload, h0]
  · rcases Nat.eq_zero_or_pos cfl with h0 | h0 <;> simp [buildCutPayload, h0]

/-- C5: for the Ethernet transport, `control('cut')` under cut mode
`none` returns an explicit `{confirmed: false, error}` rejection with
no network I/O at all; every other command/mode combination connects,
writes the command-specific payload, always performs the 4-byte status
read and decodes it, and reports `confirmed = true` iff the decoded
report is ok for feed/cut, while a pure status query is always
confirmed once the report was obtained. -/
theorem ethernetControl_spec (fl cfl : Nat) (cm : CutMode) (cmd : ControlCommand)
    (bs : List Nat) :
    (cmd = ControlCommand.cut → cm = CutMode.noCut →
      ethernetControl fl cfl cm cmd bs =
        ({ confirmed := false, status := none, error := some cutDisabledMessage }, [])) ∧
    (¬(cmd = ControlCommand.cut ∧ cm = CutMode.noCut) →
      (ethernetControl fl cfl cm cmd bs).1.status = some (parseStatusBytes bs) ∧
      (ethernetControl fl cfl cm cmd bs).2 =
        NetEffect.connect ::
          ((if cmd = ControlCommand.feed then [NetEffect.write (buildFeedPayload fl)] else []) ++
           (if cmd = ControlCommand.cut then [NetEffect.write (buildCutPayload cfl cm)] else []) ++
           [NetEffect.write STATUS_REQUEST, NetEffect.read 4, NetEffect.close]) ∧
      (cmd = ControlCommand.statusQuery →
        (ethernetControl fl cfl cm cmd bs).1.confirmed = true) ∧
      (cmd ≠ ControlCommand.statusQuery →
        ((ethernetControl fl cfl cm cmd bs).1.confirmed = true ↔
          (parseStatusBytes bs).ok = true))) := by
  constructor
  · rintro rfl rfl
    simp [ethernetControl]
  · intro h
    cases cmd with
    | feed =>
      by_cases hok : (parseStatusBytes bs).ok <;>
        simp [ethernetControl, executeEthernetControl, writeSocketPayload,
          buildFeedPayload_length_pos fl, STATUS_REQUEST, STATUS_BYTES, hok]
    | cut =>
      have hcm : cm ≠ CutMode.noCut := fun hcm => h ⟨rfl, hcm⟩
      by_cases hok : (parseStatusBytes bs).ok <;>
        simp [ethernetControl, executeEthernetControl, writeSocketPayload,
          buildCutPayload_length_pos cfl cm hcm, STATUS_REQUEST, STATUS_BYTES, hok, hcm]
    | statusQuery =>
      simp [ethernetControl, executeEthernetControl, writeSocketPayload,
        STATUS_REQUEST, STATUS_BYTES]

/-- Witness for C5: a full-mode cut with an all-clear status response is
confirmed. -/
theorem ethernetControl_spec_witness :
    (ethernetControl 2 1 CutMode.fullCut ControlCommand.cut [0, 0, 0, 0]).1.confirmed = true :=
  (((ethernetControl_spec 2 1 CutMode.fullCut ControlCommand.cut [0, 0, 0, 0]).2
      (by decide)).2.2.2 (by decide)).mpr (by decide)

/-! ## C8: the raster image payload -/

lemma setRasterPixel_length (bpr w thr : Nat) (data : Nat → Nat) (y x : Nat) (r : List Nat) :
    (setRasterPixel bpr w thr data y x r).length = r.length := by
  unfold setRasterPixel
  split
  · simp
  · rfl

lemma rowFold_length (bpr w thr : Nat) (data : Nat → Nat) (y n : Nat) (r : List Nat) :
    (rowFold bpr w thr data y n r).length = r.length :=
  foldl_length_fixed _ (fun r x => setRasterPixel_length bpr w thr data y x r) _ r

lemma outerFold_length (bpr w thr : Nat) (data : Nat → Nat) (m : Nat) (init : List Nat) :
    (outerFold bpr w thr data m init).length = init.length :=
  foldl_length_fixed _ (fun r y => rowFold_length bpr w thr data y w r) _ init

lemma buildRaster_length (w h thr : Nat) (data : Nat → Nat) :
    (buildRaster w h thr data).length = bytesPerRowOf w * h := by
  unfold buildRaster
  rw [outerFold_length]
  simp

lemma div8_lt_bytesPerRow {x w : Nat} (hx : x < w) : x / 8 < bytesPerRowOf w := by
  unfold bytesPerRowOf
  have hw : 1 ≤ w := by omega
  have h7 : w + 7 = (w - 1) + 8 := by omega
  rw [h7, Nat.add_div_right _ (by norm_num)]
  have : x / 8 ≤ (w - 1) / 8 := Nat.div_le_div_right (by omega)
  omega

lemma rowFold_succ (bpr w thr : Nat) (data : Nat → Nat) (y n : Nat) (r : List Nat) :
    rowFold bpr w thr data y (n + 1) r =
      setRasterPixel bpr w thr data y n (rowFold bpr w thr data y n r) := by
  unfold rowFold
  rw [List.range_succ, List.foldl_append]
  rfl

lemma rowMask_succ (w thr : Nat) (data : Nat → Nat) (y b n : Nat) :
    rowMask w thr data y b (n + 1) =
      if n / 8 = b ∧ data (y * w + n) < thr then
        rowMask w thr data y b n ||| 1 <<< (7 - n % 8)
      else rowMask w thr data y b n := by
  unfold rowMask
  rw [List.range_succ, List.foldl_append]
  rfl

lemma rowFold_getD_untouched (bpr w thr : Nat) (data : Nat → Nat) (y : Nat) (i : Nat) :
    ∀ (n : Nat) (r : List Nat), (∀ x, x < n → y * bpr + x / 8 ≠ i) →
      (rowFold bpr w thr data y n r).getD i 0 = r.getD i 0 := by
  intro n
  induction n with
  | zero => intro r _; rfl
  | succ n ih =>
    intro r hx
    rw [rowFold_succ]
    unfold setRasterPixel
    split
    · rw [getD_set_zero]
      rw [if_neg fun hc => hx n (by omega) hc.1]
      exact ih r fun x hxn => hx x (by omega)
    · exact ih r fun x hxn => hx x (by omega)

lemma rowFold_getD_row (bpr w thr : Nat) (data : Nat → Nat) (y b : Nat) (hb : b < bpr) :
    ∀ (n : Nat) (r : List Nat), y * bpr + b < r.length →
      (rowFold bpr w thr data y n r).getD (y * bpr + b) 0 =
        r.getD (y * bpr + b) 0 ||| rowMask w thr data y b n := by
  intro n
  induction n with
  | zero =>
    intro r _
    show r.getD (y * bpr + b) 0 = r.getD (y * bpr + b) 0 ||| 0
    rw [Nat.or_zero]
  | succ n ih =>
    intro r hlen
    rw [rowFold_succ, rowMask_succ]
    by_cases hd : data (y * w + n) < thr
    · unfold setRasterPixel
      rw [if_pos hd, getD_set_zero]
      by_cases hbb : n / 8 = b
      · rw [hbb]
        rw [if_pos ⟨rfl, by rw [rowFold_length]; omega⟩]
        rw [ih r hlen, if_pos ⟨rfl, hd⟩, Nat.or_assoc]
      · rw [if_neg fun hc => hbb (by omega)]
        rw [if_neg fun hc => hbb hc.1]
        exact ih r hlen
    · unfold setRasterPixel
      rw [if_neg hd, if_neg fun hc => hd hc.2]
      exact ih r hlen

lemma rowMask_testBit (w thr : Nat) (data : Nat → Nat) (y b j : Nat) (hj : j < 8) :
    ∀ n : Nat, (rowMask w thr data y b n).testBit j =
      decide (∃ x, x < n ∧ x / 8 = b ∧ 7 - x % 8 = j ∧ data (y * w + x) < thr) := by
  intro n
  induction n with
  | zero =>
    show (Nat.testBit 0 j) = _
    simp
  | succ n ih =>
    rw [rowMask_succ]
    by_cases hc : n / 8 = b ∧ data (y * w + n) < thr
    · rw [if_pos hc, Nat.testBit_or, ih]
      rw [show (1 : Nat) <<< (7 - n % 8) = 2 ^ (7 - n % 8) by rw [Nat.shiftLeft_eq, one_mul]]
      rw [Nat.testBit_two_pow, ← Bool.decide_or]
      refine decide_eq_decide.mpr ?_
      constructor
      · rintro (⟨x, hx, h1, h2, h3⟩ | hbit)
        · exact ⟨x, by omega, h1, h2, h3⟩
        · exact ⟨n, by omega, hc.1, hbit, hc.2⟩
      · rintro ⟨x, hx, h1, h2, h3⟩
        rcases Nat.lt_or_ge x n with hxn | hxn
        · exact Or.inl ⟨x, hxn, h1, h2, h3⟩
        · have : x = n := by omega
          subst this
          exact Or.inr h2
    · rw [if_neg hc, ih]
      refine decide_eq_decide.mpr ?_
      constructor
      · rintro ⟨x, hx, h1, h2, h3⟩
        exact ⟨x, by omega, h1, h2, h3⟩
      · rintro ⟨x, hx, h1, h2, h3⟩
        rcases Nat.lt_or_ge x n with hxn | hxn
        · exact ⟨x, hxn, h1, h2, h3⟩
        · have : x = n := by omega
          subst this
          exact absurd ⟨h1, h3⟩ hc

lemma outerFold_succ (bpr w thr : Nat) (data : Nat → Nat) (m : Nat) (init : List Nat) :
    outerFold bpr w thr data (m + 1) init =
      rowFold bpr w thr data m w (outerFold bpr w thr data m init) := by
  unfold outerFold
  rw [List.range_succ, List.foldl_append]
  rfl

lemma outerFold_getD (w h thr : Nat) (data : Nat → Nat) :
    ∀ m, m ≤ h → ∀ y b, b < bytesPerRowOf w →
      (outerFold (bytesPerRowOf w) w thr data m
          (List.replicate (bytesPerRowOf w * h) 0)).getD (y * bytesPerRowOf w + b) 0 =
        if y < m then rowMask w thr data y b w else 0 := by
  set bpr := bytesPerRowOf w with hbpr
  intro m
  induction m with
  | zero =>
    intro _ y b _
    show (List.replicate (bpr * h) 0).getD (y * bpr + b) 0 = _
    rw [getD_replicate_zero]
    simp
  | succ m ih =>
    intro hm y b hb
    rw [outerFold_succ]
    rcases Nat.lt_trichotomy y m with hy | hy | hy
    · have hmul : (y + 1) * bpr ≤ m * bpr := Nat.mul_le_mul_right _ (by omega)
      have hring : y * bpr + bpr = (y + 1) * bpr := by ring
      rw [rowFold_getD_untouched]
      · rw [ih (by omega) y b hb, if_pos hy, if_pos (by omega)]
      · intro x hx
        have := div8_lt_bytesPerRow hx
        omega
    · subst hy
      have hlen : y * bpr + b < (outerFold bpr w thr data y
          (List.replicate (bpr * h) 0)).length := by
        rw [outerFold_length, List.length_replicate]
        have hring : y * bpr + bpr = (y + 1) * bpr := by ring
        have hmul : (y + 1) * bpr ≤ h * bpr := Nat.mul_le_mul_right _ (by omega)
        have hcomm : bpr * h = h * bpr := by ring
        omega
      rw [rowFold_getD_row bpr w thr data y b hb w _ hlen]
      rw [ih (by omega) y b hb, if_neg (by omega), if_pos (by omega), Nat.zero_or]
    · have hring : (m + 1) * bpr ≤ y * bpr := Nat.mul_le_mul_right _ (by omega)
      have hring2 : m * bpr + bpr = (m + 1) * bpr := by ring
      rw [rowFold_getD_untouched]
      · rw [ih (by omega) y b hb, if_neg (by omega), if_neg (by omega)]
      · intro x hx
        have := div8_lt_bytesPerRow hx
        omega

/-- C8: the encoded image payload for a `width × height` greyscale buffer
is the 8-byte header `0x1D 0x76 0x30 0x00` followed by `ceil(width/8)`
and `height` as little-endian 16-bit values, then the packed raster of
length `ceil(width/8) × height` where bit `j` of the byte at row `y`,
column `b` is set iff the pixel `x = 8b + (7-j)` exists (zero padding
past the row width) and its value is strictly below the threshold —
8 pixels per byte, most-significant bit first, row-major. -/
theorem buildEscPosImagePayload_spec (w h thr : Nat) (data : Nat → Nat) :
    buildEscPosImagePayload w h thr data =
        imageHeader w h ++ buildRaster w h thr data ∧
      imageHeader w h =
        [0x1d, 0x76, 0x30, 0x00,
         bytesPerRowOf w % 256, bytesPerRowOf w / 256 % 256,
         h % 256, h / 256 % 256] ∧
      bytesPerRowOf w = (w + 7) / 8 ∧
      (buildEscPosImagePayload w h thr data).length = 8 + bytesPerRowOf w * h ∧
      (∀ y b j, y < h → b < bytesPerRowOf w → j < 8 →
        ((buildRaster w h thr data).getD (y * bytesPerRowOf w + b) 0).testBit j =
          decide (8 * b + (7 - j) < w ∧ data (y * w + (8 * b + (7 - j))) < thr)) := by
  refine ⟨rfl, ?_, rfl, ?_, ?_⟩
  · unfold imageHeader
    have h255 : (255 : Nat) = 2 ^ 8 - 1 := by norm_num
    have hand : ∀ v : Nat, v &&& 255 = v % 256 := by
      intro v
      rw [h255, Nat.and_pow_two_sub_one_eq_mod]
    have hshift : ∀ v : Nat, v >>> 8 = v / 256 := by
      intro v
      rw [Nat.shiftRight_eq_div_pow]
    simp only [hand, hshift]
  · rw [buildEscPosImagePayload, List.length_append, buildRaster_length]
    rfl
  · intro y b j hy hb hj
    rw [show buildRaster w h thr data = outerFold (bytesPerRowOf w) w thr data h
        (List.replicate (bytesPerRowOf w * h) 0) from rfl]
    rw [outerFold_getD w h thr data h (le_refl h) y b hb, if_pos hy]
    rw [rowMask_testBit w thr data y b j hj w]
    refine decide_eq_decide.mpr ?_
    constructor
    · rintro ⟨x, hx, h1, h2, h3⟩
      have hm : x % 8 < 8 := Nat.mod_lt _ (by norm_num)
      have hdm := Nat.div_add_mod x 8
      have hxe : x = 8 * b + (7 - j) := by omega
      subst hxe
      exact ⟨hx, h3⟩
    · rintro ⟨h1, h2⟩
      refine ⟨8 * b + (7 - j), h1, ?_, ?_, h2⟩
      · rw [Nat.mul_add_div (by norm_num)]
        rw [Nat.div_eq_of_lt (by omega)]
        omega
      · rw [Nat.mul_add_mod]
        rw [Nat.mod_eq_of_lt (by omega)]
        omega

/-- Witness for C8 at a concrete 3×1 image whose middle pixel is dark:
only bit 6 of the single raster byte is set. -/
theorem buildEscPosImagePayload_spec_witness :
    ((buildRaster 3 1 128 fun i => if i = 1 then 0 else 255).getD
        (0 * bytesPerRowOf 3 + 0) 0).testBit 6 =
      decide (8 * 0 + (7 - 6) < 3 ∧
        (fun i => if i = 1 then (0 : Nat) else 255) (0 * 3 + (8 * 0 + (7 - 6))) < 128) :=
  (buildEscPosImagePayload_spec 3 1 128 fun i => if i = 1 then 0 else 255).2.2.2.2
    0 0 6 (by decide) (by decide) (by decide)

/-! ## Job queue: helper lemmas -/

lemma nextQueued_mem {jobs : List Job} {j : Job} (h : nextQueued jobs = some j) :
    j ∈ jobs :=
  List.mem_of_find?_eq_some h

lemma nextQueued_queued {jobs : List Job} {j : Job} (h : nextQueued jobs = some j) :
    j.status = JobStatus.queued := by
  have := List.find?_some h
  simpa using this

lemma nextQueued_min {jobs : List Job} {j : Job}
    (hp : jobs.Pairwise fun a b => a.id < b.id) (h : nextQueued jobs = some j) :
    ∀ j' ∈ jobs, j'.status = JobStatus.queued → j.id ≤ j'.id := by
  induction jobs with
  | nil => simp [nextQueued] at h
  | cons a t ih =>
    rcases List.pairwise_cons.mp hp with ⟨hat, ht⟩
    by_cases ha : a.status = JobStatus.queued
    · have heq : nextQueued (a :: t) = some a :=
        List.find?_cons_of_pos t (by simpa using ha)
      rw [heq] at h
      cases h
      intro j' hj' _
      rcases List.mem_cons.mp hj' with rfl | hj'
      · exact Nat.le_refl _
      · exact Nat.le_of_lt (hat j' hj')
    · have heq : nextQueued (a :: t) = nextQueued t :=
        List.find?_cons_of_neg t (by simpa using ha)
      rw [heq] at h
      intro j' hj' hq
      rcases List.mem_cons.mp hj' with rfl | hj'
      · exact absurd hq ha
      · exact ih ht h j' hj' hq

lemma pairwise_id_eq {jobs : List Job} (hp : jobs.Pairwise fun a b => a.id < b.id)
    {a b : Job} (ha : a ∈ jobs) (hb : b ∈ jobs) (hid : a.id = b.id) : a = b := by
  by_contra hne
  have hsym : Symmetric fun a b : Job => a.id ≠ b.id := fun x y hxy he => hxy he.symm
  have hp' : jobs.Pairwise fun a b : Job => a.id ≠ b.id :=
    hp.imp fun h => Nat.ne_of_lt h
  exact hp'.forall hsym ha hb hne hid

lemma setStatus_pairwise {jobs : List Job} {id : Nat} {st : JobStatus} {err : Option String}
    (hp : jobs.Pairwise fun a b => a.id < b.id) :
    (setStatus jobs id st err).Pairwise fun a b => a.id < b.id := by
  unfold setStatus
  rw [List.pairwise_map]
  refine hp.imp ?_
  intro a b hab
  dsimp only
  split <;> split <;> exact hab

lemma setStatus_cases {jobs : List Job} {id : Nat} {st : JobStatus} {err : Option String}
    {j' : Job} (h : j' ∈ setStatus jobs id st err) :
    ∃ j0 ∈ jobs, j'.id = j0.id ∧
      ((j0.id = id ∧ j'.status = st ∧ j'.error = err) ∨
       (j0.id ≠ id ∧ j'.status = j0.status ∧ j'.error = j0.error)) := by
  unfold setStatus at h
  rcases List.mem_map.mp h with ⟨j0, hj0, rfl⟩
  by_cases hc : j0.id = id
  · exact ⟨j0, hj0, by simp [hc], Or.inl ⟨hc, by simp [hc], by simp [hc]⟩⟩
  · exact ⟨j0, hj0, by simp [hc], Or.inr ⟨hc, by simp [hc], by simp [hc]⟩⟩

lemma setStatus_mem_target {jobs : List Job} {id : Nat} {st : JobStatus} {err : Option String}
    {j0 : Job} (hj0 : j0 ∈ jobs) (hid : j0.id = id) :
    { j0 with status := st, error := err } ∈ setStatus jobs id st err := by
  unfold setStatus
  exact List.mem_map.mpr ⟨j0, hj0, by simp [hid]⟩

/-! ## Job queue: unfolding equations for the synchronous runs -/

lemma loopStep_some {s : QState} {j : Job} (hq : nextQueued s.jobs = some j) :
    loopStep s =
      { s with jobs := setStatus s.jobs j.id JobStatus.printing none
               worker := s.worker ++ [j.id]
               claimed := s.claimed ++ [j.id] } := by
  unfold loopStep
  rw [hq]

lemma loopStep_none_true {s : QState} (hq : nextQueued s.jobs = none)
    (hpk : s.pendingKick = true) :
    loopStep s = { s with processing := false, pendingKick := false } := by
  unfold loopStep
  rw [hq]
  simp only [hpk, if_true]
  have hq2 : nextQueued ({ s with pendingKick := false, processing := true } : QState).jobs =
      none := hq
  rw [hq2]

lemma loopStep_none_false {s : QState} (hq : nextQueued s.jobs = none)
    (hpk : s.pendingKick = false) :
    loopStep s = { s with processing := false } := by
  unfold loopStep
  rw [hq]
  simp only [hpk]
  rfl

lemma kick_busy {s : QState} (hp : s.processing = true) :
    kick s = { s with pendingKick := true } := by
  unfold kick
  simp [hp]

lemma kick_idle {s : QState} (hp : s.processing = false) :
    kick s = loopStep { s with processing := true } := by
  unfold kick
  simp [hp]

lemma resume_nil {s : QState} (hw : s.worker = []) (o : Except String Unit) :
    resume s o = s := by
  unfold resume
  rw [hw]

lemma resume_ok {s : QState} {id : Nat} {rest : List Nat} (hw : s.worker = id :: rest) :
    resume s (Except.ok ()) =
      loopStep { s with jobs := setStatus s.jobs id JobStatus.succeeded none
                        worker := rest } := by
  unfold resume
  rw [hw]

lemma resume_error {s : QState} {id : Nat} {rest : List Nat} (hw : s.worker = id :: rest)
    (msg : String) :
    resume s (Except.error msg) =
      loopStep { s with jobs := setStatus s.jobs id JobStatus.failed (some msg)
                        worker := rest } := by
  unfold resume
  rw [hw]

/-! ## Job queue: the invariant is inductive -/

lemma inv_setPending {s : QState} (hInv : Inv s) (pk : Bool) :
    Inv { s with pendingKick := pk } :=
  ⟨hInv.sortedIds, hInv.idsLt, hInv.workerLen, hInv.workerLt, hInv.workerMem,
   hInv.idleWorker, hInv.workerPrinting, hInv.noWorkerNoPrinting, hInv.claimedSorted,
   hInv.claimedLt, hInv.claimedBeforeQueued, hInv.workerBeforeQueued⟩

lemma inv_setFlags {s : QState} (hInv : Inv s) (hw : s.worker = []) (b pk : Bool) :
    Inv { s with processing := b, pendingKick := pk } := by
  refine ⟨hInv.sortedIds, hInv.idsLt, hInv.workerLen, hInv.workerLt, hInv.workerMem,
    ?_, ?_, hInv.noWorkerNoPrinting, hInv.claimedSorted,
    hInv.claimedLt, hInv.claimedBeforeQueued, hInv.workerBeforeQueued⟩
  · intro _
    exact hw
  · intro id heq
    rw [show ({ s with processing := b, pendingKick := pk } : QState).worker = s.worker
        from rfl, hw] at heq
    simp at heq

lemma inv_start {s : QState} (hInv : Inv s) (hw : s.worker = []) :
    Inv { s with processing := true } := by
  refine ⟨hInv.sortedIds, hInv.idsLt, hInv.workerLen, hInv.workerLt, hInv.workerMem,
    ?_, ?_, hInv.noWorkerNoPrinting, hInv.claimedSorted,
    hInv.claimedLt, hInv.claimedBeforeQueued, hInv.workerBeforeQueued⟩
  · intro _
    exact hw
  · intro id heq
    rw [show ({ s with processing := true } : QState).worker = s.worker from rfl, hw] at heq
    simp at heq

lemma inv_claim {s : QState} {j : Job} (hInv : Inv s) (hw : s.worker = [])
    (hp : s.processing = true) (hq : nextQueued s.jobs = some j) :
    Inv { s with jobs := setStatus s.jobs j.id JobStatus.printing none
                 worker := s.worker ++ [j.id]
                 claimed := s.claimed ++ [j.id] } := by
  have hjmem : j ∈ s.jobs := nextQueued_mem hq
  have hjq : j.status = JobStatus.queued := nextQueued_queued hq
  have hmin := nextQueued_min hInv.sortedIds hq
  rw [hw]
  refine ⟨?_, ?_, ?_, ?_, ?_, ?_, ?_, ?_, ?_, ?_, ?_, ?_⟩
  · exact setStatus_pairwise hInv.sortedIds
  · intro j' hj'
    rcases setStatus_cases hj' with ⟨j0, hj0, hid, -⟩
    have := hInv.idsLt j0 hj0
    show j'.id < s.nextId
    omega
  · simp
  · intro id hid
    simp at hid
    subst hid
    show j.id < s.nextId
    exact hInv.idsLt j hjmem
  · intro id hid
    simp at hid
    subst hid
    exact ⟨_, setStatus_mem_target hjmem rfl, rfl, rfl⟩
  · intro hh
    exact absurd (show s.processing = false from hh) (by simp [hp])
  · intro id heq
    have heq' : [j.id] = [id] := heq
    simp at heq'
    subst heq'
    refine ⟨hp, ?_⟩
    intro jj hjj
    rcases setStatus_cases hjj with ⟨j0, hj0, hid, hcase | hcase⟩
    · constructor
      · intro _
        omega
      · intro _
        exact hcase.2.1
    · have hnp := hInv.noWorkerNoPrinting hw j0 hj0
      constructor
      · intro habs
        rw [hcase.2.1] at habs
        exact absurd habs hnp
      · intro habs
        exact absurd (show j0.id = j.id by omega) hcase.1
  · intro habs
    simp at habs
  · exact List.pairwise_append.mpr ⟨hInv.claimedSorted, by simp, by
      intro c hc b hb
      simp at hb
      subst hb
      exact hInv.claimedBeforeQueued c hc j hjmem hjq⟩
  · intro c hc
    rcases List.mem_append.mp hc with hc | hc
    · have := hInv.claimedLt c hc
      show c < s.nextId
      omega
    · simp at hc
      subst hc
      show j.id < s.nextId
      exact hInv.idsLt j hjmem
  · intro c hc jj hjj hqq
    rcases setStatus_cases hjj with ⟨j0, hj0, hid, hcase | hcase⟩
    · exact absurd (hcase.2.1.symm.trans hqq) (by simp)
    · have hq0 : j0.status = JobStatus.queued := hcase.2.1.symm.trans hqq
      rcases List.mem_append.mp hc with hc | hc
      · have := hInv.claimedBeforeQueued c hc j0 hj0 hq0
        omega
      · simp at hc
        subst hc
        have h1 := hmin j0 hj0 hq0
        have h2 := hcase.1
        omega
  · intro id hid jj hjj hqq
    simp at hid
    subst hid
    rcases setStatus_cases hjj with ⟨j0, hj0, hid, hcase | hcase⟩
    · exact absurd (hcase.2.1.symm.trans hqq) (by simp)
    · have hq0 : j0.status = JobStatus.queued := hcase.2.1.symm.trans hqq
      have h1 := hmin j0 hj0 hq0
      have h2 := hcase.1
      omega

lemma inv_loopStep {s : QState} (hInv : Inv s) (hw : s.worker = [])
    (hp : s.processing = true) : Inv (loopStep s) := by
  cases hq : nextQueued s.jobs with
  | some j =>
    rw [loopStep_some hq]
    exact inv_claim hInv hw hp hq
  | none =>
    cases hpk : s.pendingKick with
    | true =>
      rw [loopStep_none_true hq hpk]
      exact inv_setFlags hInv hw false false
    | false =>
      rw [loopStep_none_false hq hpk]
      exact inv_setFlags hInv hw false s.pendingKick

lemma inv_submit {s : QState} (hInv : Inv s) :
    Inv { s with
          jobs := s.jobs ++ [{ id := s.nextId, status := JobStatus.queued, error := none }]
          nextId := s.nextId + 1 } := by
  refine ⟨?_, ?_, hInv.workerLen, ?_, ?_, hInv.idleWorker, ?_, ?_, hInv.claimedSorted,
    ?_, ?_, ?_⟩
  · refine List.pairwise_append.mpr ⟨hInv.sortedIds, by simp, ?_⟩
    intro a ha b hb
    simp at hb
    subst hb
    exact hInv.idsLt a ha
  · intro j' hj'
    rcases List.mem_append.mp hj' with h | h
    · have := hInv.idsLt j' h
      show j'.id < s.nextId + 1
      omega
    · simp at h
      subst h
      show s.nextId < s.nextId + 1
      omega
  · intro id hid
    have := hInv.workerLt id hid
    show id < s.nextId + 1
    omega
  · intro id hid
    obtain ⟨j0, hj0, h1, h2⟩ := hInv.workerMem id hid
    exact ⟨j0, List.mem_append_left _ hj0, h1, h2⟩
  · intro id heq
    obtain ⟨hpr, hiff⟩ := hInv.workerPrinting id heq
    refine ⟨hpr, ?_⟩
    intro jj hjj
    rcases List.mem_append.mp hjj with h | h
    · exact hiff jj h
    · simp at h
      subst h
      have hidlt : id < s.nextId := hInv.workerLt id (by rw [show s.worker = [id] from heq]; simp)
      constructor
      · intro habs
        exact absurd habs (by simp)
      · intro habs
        exact absurd (show s.nextId = id from habs) (by omega)
  · intro hwk jj hjj
    rcases List.mem_append.mp hjj with h | h
    · exact hInv.noWorkerNoPrinting hwk jj h
    · simp at h
      subst h
      simp
  · intro c hc
    have := hInv.claimedLt c hc
    show c < s.nextId + 1
    omega
  · intro c hc jj hjj hqq
    rcases List.mem_append.mp hjj with h | h
    · exact hInv.claimedBeforeQueued c hc jj h hqq
    · simp at h
      subst h
      show c < s.nextId
      exact hInv.claimedLt c hc
  · intro id hid jj hjj hqq
    rcases List.mem_append.mp hjj with h | h
    · exact hInv.workerBeforeQueued id hid jj h hqq
    · simp at h
      subst h
      show id < s.nextId
      exact hInv.workerLt id hid

lemma inv_resume_mid {s : QState} (hInv : Inv s) (id : Nat) (hw : s.worker = [id])
    (st' : JobStatus) (err' : Option String) (hst : st' ≠ JobStatus.printing)
    (hstq : st' ≠ JobStatus.queued) :
    Inv { s with jobs := setStatus s.jobs id st' err', worker := [] } := by
  refine ⟨?_, ?_, ?_, ?_, ?_, ?_, ?_, ?_, hInv.claimedSorted, hInv.claimedLt, ?_, ?_⟩
  · exact setStatus_pairwise hInv.sortedIds
  · intro j' hj'
    rcases setStatus_cases hj' with ⟨j0, hj0, hid, -⟩
    have := hInv.idsLt j0 hj0
    show j'.id < s.nextId
    omega
  · simp
  · intro i hi
    simp at hi
  · intro i hi
    simp at hi
  · intro _
    rfl
  · intro i heq
    have heq' : ([] : List Nat) = [i] := heq
    simp at heq'
  · intro _ jj hjj
    rcases setStatus_cases hjj with ⟨j0, hj0, hid, hcase | hcase⟩
    · rw [hcase.2.1]
      exact hst
    · rw [hcase.2.1]
      intro habs
      have := (hInv.workerPrinting id hw).2 j0 hj0
      have : j0.id = id := this.mp habs
      exact hcase.1 this
  · intro c hc jj hjj hqq
    rcases setStatus_cases hjj with ⟨j0, hj0, hid, hcase | hcase⟩
    · exact absurd (hcase.2.1.symm.trans hqq) hstq
    · have hq0 : j0.status = JobStatus.queued := hcase.2.1.symm.trans hqq
      have := hInv.claimedBeforeQueued c hc j0 hj0 hq0
      omega
  · intro i hi
    simp at hi

lemma inv_kick {s : QState} (hInv : Inv s) : Inv (kick s) := by
  cases hp : s.processing with
  | true =>
    rw [kick_busy hp]
    exact inv_setPending hInv true
  | false =>
    rw [kick_idle hp]
    exact inv_loopStep (inv_start hInv (hInv.idleWorker hp)) (hInv.idleWorker hp) rfl

lemma inv_resume {s : QState} (hInv : Inv s) (o : Except String Unit) :
    Inv (resume s o) := by
  cases hw : s.worker with
  | nil =>
    rw [resume_nil hw]
    exact hInv
  | cons id rest =>
    have hr : rest = [] := by
      have hlen := hInv.workerLen
      rw [hw] at hlen
      cases rest with
      | nil => rfl
      | cons a t => simp at hlen
    subst hr
    have hw' : s.worker = [id] := hw
    have hpr := (hInv.workerPrinting id hw').1
    cases o with
    | ok u =>
      cases u
      rw [resume_ok hw']
      exact inv_loopStep
        (inv_resume_mid hInv id hw' JobStatus.succeeded none (by simp) (by simp)) rfl hpr
    | error msg =>
      rw [resume_error hw' msg]
      exact inv_loopStep
        (inv_resume_mid hInv id hw' JobStatus.failed (some msg) (by simp) (by simp)) rfl hpr

lemma inv_applyEvent {s : QState} (hInv : Inv s) (e : Event) : Inv (applyEvent s e) := by
  cases e with
  | submit => exact inv_submit hInv
  | kickEvent => exact inv_kick hInv
  | printDone o => exact inv_resume hInv o

lemma inv_qInit : Inv qInit := by
  constructor <;> simp [qInit]

lemma reachable_inv {s : QState} (h : Reachable s) : Inv s := by
  induction h with
  | init => exact inv_qInit
  | step e _ ih => exact inv_applyEvent ih e

/-! ## C1: single worker, single printing job, coalesced wake -/

/-- C1: in every reachable queue state at most one job is `printing`, at
most one `print` invocation is in flight (so `print` is never entered
while a previous invocation is still pending), a `kick()` received
while the loop is processing only sets the single pending flag and
changes nothing else — in particular it starts no second loop — and an
idle queue has no in-flight print. -/
theorem jobQueue_single_worker (s : QState) (hs : Reachable s) :
    (s.jobs.filter fun j => j.status == JobStatus.printing).length ≤ 1 ∧
      s.worker.length ≤ 1 ∧
      (∀ id, s.worker = [id] → s.processing = true) ∧
      (s.processing = true →
        applyEvent s Event.kickEvent = { s with pendingKick := true }) ∧
      (s.processing = false → s.worker = []) := by
  have hInv := reachable_inv hs
  refine ⟨?_, hInv.workerLen, fun id h => (hInv.workerPrinting id h).1, ?_, hInv.idleWorker⟩
  · cases hw : s.worker with
    | nil =>
      have h := hInv.noWorkerNoPrinting hw
      have hnil : s.jobs.filter (fun j => j.status == JobStatus.printing) = [] :=
        List.filter_eq_nil_iff.mpr fun a ha => by simpa using h a ha
      rw [hnil]
      simp
    | cons id rest =>
      have hr : rest = [] := by
        have hlen := hInv.workerLen
        rw [hw] at hlen
        cases rest with
        | nil => rfl
        | cons a t => simp at hlen
      subst hr
      have hiff := (hInv.workerPrinting id hw).2
      rcases hfl : s.jobs.filter (fun j => j.status == JobStatus.printing)
        with - | ⟨a, - | ⟨b, t⟩⟩
      · rw [hfl]
        simp
      · rw [hfl]
        simp
      · exfalso
        have hf := hInv.sortedIds.filter fun j => j.status == JobStatus.printing
        rw [hfl] at hf
        rcases List.pairwise_cons.mp hf with ⟨hab, -⟩
        have h1 := hab b (by simp)
        have ha' : a ∈ s.jobs.filter (fun j => j.status == JobStatus.printing) := by
          rw [hfl]; simp
        have hb' : b ∈ s.jobs.filter (fun j => j.status == JobStatus.printing) := by
          rw [hfl]; simp
        have hamem := List.mem_filter.mp ha'
        have hbmem := List.mem_filter.mp hb'
        have ha2 : a.id = id := (hiff a hamem.1).mp (by simpa using hamem.2)
        have hb2 : b.id = id := (hiff b hbmem.1).mp (by simpa using hbmem.2)
        omega
  · intro hp
    rw [show applyEvent s Event.kickEvent = kick s from rfl, kick_busy hp]

/-- Witness for C1 at the reachable state reached by one submit and one
wake (the worker is mid-print on job 0). -/
theorem jobQueue_single_worker_witness :
    ((applyEvent (applyEvent qInit Event.submit) Event.kickEvent).jobs.filter
        fun j => j.status == JobStatus.printing).length ≤ 1 ∧
      (applyEvent (applyEvent qInit Event.submit) Event.kickEvent).worker.length ≤ 1 ∧
      (∀ id, (applyEvent (applyEvent qInit Event.submit) Event.kickEvent).worker = [id] →
        (applyEvent (applyEvent qInit Event.submit) Event.kickEvent).processing = true) ∧
      ((applyEvent (applyEvent qInit Event.submit) Event.kickEvent).processing = true →
        applyEvent (applyEvent (applyEvent qInit Event.submit) Event.kickEvent)
            Event.kickEvent =
          { applyEvent (applyEvent qInit Event.submit) Event.kickEvent with
            pendingKick := true }) ∧
      ((applyEvent (applyEvent qInit Event.submit) Event.kickEvent).processing = false →
        (applyEvent (applyEvent qInit Event.submit) Event.kickEvent).worker = []) :=
  jobQueue_single_worker _
    (Reachable.step Event.kickEvent (Reachable.step Event.submit Reachable.init))

/-! ## C2: strict FIFO by job id -/

/-- C2: the worker always claims the queued job with the smallest id —
`nextQueued` returns a queued job whose id is minimal among queued
jobs — so in every reachable state the ghost history of claimed job
ids is strictly increasing (jobs submitted as A, B, C are printed in
exactly that order), and the job currently being printed is older than
every queued job: the worker never processes a job while an older
queued job exists. -/
theorem jobQueue_fifo (s : QState) (hs : Reachable s) :
    s.claimed.Pairwise (· < ·) ∧
      (∀ j, nextQueued s.jobs = some j →
        j.status = JobStatus.queued ∧
          ∀ j' ∈ s.jobs, j'.status = JobStatus.queued → j.id ≤ j'.id) ∧
      (∀ id ∈ s.worker, ∀ j ∈ s.jobs, j.status = JobStatus.queued → id < j.id) ∧
      (∀ c ∈ s.claimed, ∀ j ∈ s.jobs, j.status = JobStatus.queued → c < j.id) := by
  have hInv := reachable_inv hs
  exact ⟨hInv.claimedSorted,
    fun j hj => ⟨nextQueued_queued hj, nextQueued_min hInv.sortedIds hj⟩,
    hInv.workerBeforeQueued, hInv.claimedBeforeQueued⟩

/-- Witness for C2 at the state reached by two submits and one wake: job
0 is being printed while job 1 is still queued. -/
theorem jobQueue_fifo_witness :
    (applyEvent (applyEvent (applyEvent qInit Event.submit) Event.submit)
        Event.kickEvent).claimed.Pairwise (· < ·) ∧
      (∀ j, nextQueued (applyEvent (applyEvent (applyEvent qInit Event.submit) Event.submit)
          Event.kickEvent).jobs = some j →
        j.status = JobStatus.queued ∧
          ∀ j' ∈ (applyEvent (applyEvent (applyEvent qInit Event.submit) Event.submit)
              Event.kickEvent).jobs, j'.status = JobStatus.queued → j.id ≤ j'.id) ∧
      (∀ id ∈ (applyEvent (applyEvent (applyEvent qInit Event.submit) Event.submit)
          Event.kickEvent).worker,
        ∀ j ∈ (applyEvent (applyEvent (applyEvent qInit Event.submit) Event.submit)
            Event.kickEvent).jobs, j.status = JobStatus.queued → id < j.id) ∧
      (∀ c ∈ (applyEvent (applyEvent (applyEvent qInit Event.submit) Event.submit)
          Event.kickEvent).claimed,
        ∀ j ∈ (applyEvent (applyEvent (applyEvent qInit Event.submit) Event.submit)
            Event.kickEvent).jobs, j.status = JobStatus.queued → c < j.id) :=
  jobQueue_fifo _
    (Reachable.step Event.kickEvent
      (Reachable.step Event.submit (Reachable.step Event.submit Reachable.init)))

/-! ## C3: bounded network retry and failure recording -/

lemma retryNetworkFrom_eq {α : Type} (action : Nat → Except String α) (attempt : Nat) :
    retryNetworkFrom action attempt =
      match action attempt with
      | .ok a => .ok a
      | .error e =>
        if attempt ≥ DEFAULT_RETRIES then .error e
        else retryNetworkFrom action (attempt + 1) := by
  conv_lhs => rw [retryNetworkFrom]

lemma retryNetworkFrom_zero {α : Type} (action : Nat → Except String α) :
    retryNetworkFrom action 0 =
      match action 0 with
      | .ok a => .ok a
      | .error _ => retryNetworkFrom action 1 := by
  rw [retryNetworkFrom_eq]
  cases h : action 0 with
  | ok a => rfl
  | error e =>
    show (if 0 ≥ DEFAULT_RETRIES then (Except.error e : Except String α)
        else retryNetworkFrom action (0 + 1)) = retryNetworkFrom action 1
    rw [if_neg (by norm_num [DEFAULT_RETRIES])]

lemma retryNetworkFrom_one {α : Type} (action : Nat → Except String α) :
    retryNetworkFrom action 1 =
      match action 1 with
      | .ok a => .ok a
      | .error _ => retryNetworkFrom action 2 := by
  rw [retryNetworkFrom_eq]
  cases h : action 1 with
  | ok a => rfl
  | error e =>
    show (if 1 ≥ DEFAULT_RETRIES then (Except.error e : Except String α)
        else retryNetworkFrom action (1 + 1)) = retryNetworkFrom action 2
    rw [if_neg (by norm_num [DEFAULT_RETRIES])]

lemma retryNetworkFrom_two {α : Type} (action : Nat → Except String α) :
    retryNetworkFrom action 2 = action 2 := by
  rw [retryNetworkFrom_eq]
  cases h : action 2 with
  | ok a => rfl
  | error e =>
    show (if 2 ≥ DEFAULT_RETRIES then (Except.error e : Except String α)
        else retryNetworkFrom action (2 + 1)) = Except.error e
    rw [if_pos (by norm_num [DEFAULT_RETRIES])]

/-- C3: the Ethernet retry wrapper runs the connect-and-write action at
most 3 times — its result depends only on the outcomes of attempts 0,
1 and 2 — a success at any attempt within the bound is returned as the
overall success, and when all 3 attempts fail the last attempt's error
is the one surfaced; the job queue records a successful print as
`succeeded` and a failed one as `failed` with exactly the surfaced
error detail attached, and the worker loop keeps running: it
immediately claims the next queued job when one exists. -/
theorem retryNetwork_spec :
    (∀ (α : Type) (a a' : Nat → Except String α),
      (∀ k, k < DEFAULT_RETRIES + 1 → a k = a' k) → retryNetwork a = retryNetwork a') ∧
    (∀ (α : Type) (a : Nat → Except String α) (k : Nat) (v : α),
      k ≤ DEFAULT_RETRIES → (∀ i, i < k → ∃ e, a i = Except.error e) →
        a k = Except.ok v → retryNetwork a = Except.ok v) ∧
    (∀ (α : Type) (a : Nat → Except String α) (e0 e1 e2 : String),
      a 0 = Except.error e0 → a 1 = Except.error e1 → a 2 = Except.error e2 →
        retryNetwork a = Except.error e2) ∧
    (∀ (s : QState) (id : Nat) (rest : List Nat), Reachable s →
      s.worker = id :: rest →
        ∃ j ∈ (applyEvent s (Event.printDone (Except.ok ()))).jobs,
          j.id = id ∧ j.status = JobStatus.succeeded ∧ j.error = none) ∧
    (∀ (s : QState) (msg : String) (id : Nat) (rest : List Nat), Reachable s →
      s.worker = id :: rest →
        ∃ j ∈ (applyEvent s (Event.printDone (Except.error msg))).jobs,
          j.id = id ∧ j.status = JobStatus.failed ∧ j.error = some msg) ∧
    (∀ (s : QState) (msg : String) (id : Nat) (rest : List Nat) (j' : Job), Reachable s →
      s.worker = id :: rest →
        nextQueued (setStatus s.jobs id JobStatus.failed (some msg)) = some j' →
          (applyEvent s (Event.printDone (Except.error msg))).worker = [j'.id]) := by
  refine ⟨?_, ?_, ?_, ?_, ?_, ?_⟩
  · intro α a a' h
    have e0 := h 0 (by norm_num [DEFAULT_RETRIES])
    have e1 := h 1 (by norm_num [DEFAULT_RETRIES])
    have e2 := h 2 (by norm_num [DEFAULT_RETRIES])
    unfold retryNetwork
    rw [retryNetworkFrom_zero, retryNetworkFrom_zero, e0]
    cases ha0 : a' 0 with
    | ok v => rfl
    | error e =>
      show retryNetworkFrom a 1 = retryNetworkFrom a' 1
      rw [retryNetworkFrom_one, retryNetworkFrom_one, e1]
      cases ha1 : a' 1 with
      | ok v => rfl
      | error e =>
        show retryNetworkFrom a 2 = retryNetworkFrom a' 2
        rw [retryNetworkFrom_two, retryNetworkFrom_two, e2]
  · intro α a k v hk hprev hak
    unfold retryNetwork
    have hk2 : k ≤ 2 := by simpa [DEFAULT_RETRIES] using hk
    interval_cases k
    · rw [retryNetworkFrom_zero, hak]
    · obtain ⟨e0, he0⟩ := hprev 0 (by norm_num)
      rw [retryNetworkFrom_zero, he0]
      show retryNetworkFrom a 1 = Except.ok v
      rw [retryNetworkFrom_one, hak]
    · obtain ⟨e0, he0⟩ := hprev 0 (by norm_num)
      obtain ⟨e1, he1⟩ := hprev 1 (by norm_num)
      rw [retryNetworkFrom_zero, he0]
      show retryNetworkFrom a 1 = Except.ok v
      rw [retryNetworkFrom_one, he1]
      show retryNetworkFrom a 2 = Except.ok v
      rw [retryNetworkFrom_two, hak]
  · intro α a e0 e1 e2 h0 h1 h2
    unfold retryNetwork
    rw [retryNetworkFrom_zero, h0]
    show retryNetworkFrom a 1 = Except.error e2
    rw [retryNetworkFrom_one, h1]
    show retryNetworkFrom a 2 = Except.error e2
    rw [retryNetworkFrom_two, h2]
  · intro s id rest hs hw
    have hInv := reachable_inv hs
    have hr : rest = [] := by
      have hlen := hInv.workerLen
      rw [hw] at hlen
      cases rest with
      | nil => rfl
      | cons a t => simp at hlen
    subst hr
    obtain ⟨j0, hj0, hj0id, -⟩ := hInv.workerMem id (by rw [hw]; simp)
    have hjmem : { j0 with status := JobStatus.succeeded, error := none } ∈
        setStatus s.jobs id JobStatus.succeeded none := setStatus_mem_target hj0 hj0id
    rw [show applyEvent s (Event.printDone (Except.ok ())) =
        resume s (Except.ok ()) from rfl, resume_ok hw]
    set S2 : QState :=
      { s with jobs := setStatus s.jobs id JobStatus.succeeded none, worker := [] }
      with hS2
    cases hq : nextQueued S2.jobs with
    | some j' =>
      rw [loopStep_some hq]
      have hsorted : S2.jobs.Pairwise fun a b => a.id < b.id :=
        setStatus_pairwise hInv.sortedIds
      have hne : ({ j0 with status := JobStatus.succeeded, error := none } : Job).id ≠
          j'.id := by
        intro habs
        have heq := pairwise_id_eq hsorted hjmem (nextQueued_mem hq) habs
        have := nextQueued_queued hq
        rw [← heq] at this
        simp at this
      refine ⟨{ j0 with status := JobStatus.succeeded, error := none }, ?_, hj0id, rfl, rfl⟩
      show _ ∈ setStatus S2.jobs j'.id JobStatus.printing none
      unfold setStatus
      exact List.mem_map.mpr
        ⟨{ j0 with status := JobStatus.succeeded, error := none }, hjmem, by simp [hne]⟩
    | none =>
      cases hpk : S2.pendingKick with
      | true =>
        rw [loopStep_none_true hq hpk]
        exact ⟨{ j0 with status := JobStatus.succeeded, error := none }, hjmem,
          hj0id, rfl, rfl⟩
      | false =>
        rw [loopStep_none_false hq hpk]
        exact ⟨{ j0 with status := JobStatus.succeeded, error := none }, hjmem,
          hj0id, rfl, rfl⟩
  · intro s msg id rest hs hw
    have hInv := reachable_inv hs
    have hr : rest = [] := by
      have hlen := hInv.workerLen
      rw [hw] at hlen
      cases rest with
      | nil => rfl
      | cons a t => simp at hlen
    subst hr
    obtain ⟨j0, hj0, hj0id, -⟩ := hInv.workerMem id (by rw [hw]; simp)
    have hjmem : { j0 with status := JobStatus.failed, error := some msg } ∈
        setStatus s.jobs id JobStatus.failed (some msg) := setStatus_mem_target hj0 hj0id
    rw [show applyEvent s (Event.printDone (Except.error msg)) =
        resume s (Except.error msg) from rfl, resume_error hw msg]
    set S1 : QState :=
      { s with jobs := setStatus s.jobs id JobStatus.failed (some msg), worker := [] }
      with hS1
    cases hq : nextQueued S1.jobs with
    | some j' =>
      rw [loopStep_some hq]
      have hsorted : S1.jobs.Pairwise fun a b => a.id < b.id :=
        setStatus_pairwise hInv.sortedIds
      have hne : ({ j0 with status := JobStatus.failed, error := some msg } : Job).id ≠
          j'.id := by
        intro habs
        have heq := pairwise_id_eq hsorted hjmem (nextQueued_mem hq) habs
        have := nextQueued_queued hq
        rw [← heq] at this
        simp at this
      refine ⟨{ j0 with status := JobStatus.failed, error := some msg }, ?_, hj0id, rfl, rfl⟩
      show _ ∈ setStatus S1.jobs j'.id JobStatus.printing none
      unfold setStatus
      exact List.mem_map.mpr
        ⟨{ j0 with status := JobStatus.failed, error := some msg }, hjmem, by simp [hne]⟩
    | none =>
      cases hpk : S1.pendingKick with
      | true =>
        rw [loopStep_none_true hq hpk]
        exact ⟨{ j0 with status := JobStatus.failed, error := some msg }, hjmem,
          hj0id, rfl, rfl⟩
      | false =>
        rw [loopStep_none_false hq hpk]
        exact ⟨{ j0 with status := JobStatus.failed, error := some msg }, hjmem,
          hj0id, rfl, rfl⟩
  · intro s msg id rest j' hs hw hq
    have hInv := reachable_inv hs
    have hr : rest = [] := by
      have hlen := hInv.workerLen
      rw [hw] at hlen
      cases rest with
      | nil => rfl
      | cons a t => simp at hlen
    subst hr
    rw [show applyEvent s (Event.printDone (Except.error msg)) =
        resume s (Except.error msg) from rfl, resume_error hw msg]
    have hq1 : nextQueued
        ({ s with jobs := setStatus s.jobs id JobStatus.failed (some msg)
                  worker := [] } : QState).jobs = some j' := hq
    rw [loopStep_some hq1]
    simp

/-- Witness for C3: an action that fails attempts 0 and 1 and succeeds on
attempt 2 is retried to success, and one that fails all three surfaces
the last error. -/
theorem retryNetwork_spec_witness :
    retryNetwork (fun k => if k = 2 then Except.ok 7 else Except.error "boom") =
        Except.ok 7 ∧
      retryNetwork
          (fun k => (Except.error (if k = 0 then "a" else if k = 1 then "b" else "c") :
            Except String Nat)) =
        Except.error "c" :=
  ⟨retryNetwork_spec.2.1 Nat _ 2 7 (by norm_num [DEFAULT_RETRIES])
      (fun i hi => ⟨"boom", by interval_cases i <;> rfl⟩) rfl,
    retryNetwork_spec.2.2.1 Nat _ "a" "b" "c" rfl rfl rfl⟩

end Receipty
